import Mathlib

/-
Verification development for the point-cloud renderer and the dynamic
obstacle manager of the wheelos frontend.

JS numbers are modelled as rationals, Float32Array storage as functions
from component index to rational, and the mutable class instances as
explicit state values threaded through the operations.
-/

/-- Capacity of the preallocated point-cloud device buffer, MAX_POINTS. -/
def MAX_POINTS : ℕ := 200000

/-- Sorted height thresholds (upper bound, exclusive), HEIGHT_THRESHOLDS. -/
def HEIGHT_THRESHOLDS : List ℚ := [0.5, 1.0, 1.5, 2.0, 2.5, 3.0]

/-- Pre-computed RGB triplets for each height band, HEIGHT_COLORS_RGB. -/
def HEIGHT_COLORS_RGB : List (ℚ × ℚ × ℚ) :=
  [ (1.0, 0.0, 0.0)
  , (1.0, 0.498, 0.0)
  , (1.0, 1.0, 0.0)
  , (0.0, 1.0, 0.0)
  , (0.0, 0.0, 1.0)
  , (0.294, 0.0, 0.51)
  , (0.58, 0.0, 0.827) ]

/-- Loop body of getColorIndex: scan a threshold list, returning the index of
the first element strictly greater than z, or the list length if none is. -/
def getColorIndexAux (z : ℚ) : List ℚ → ℕ
  | [] => 0
  | t :: ts => if z < t then 0 else getColorIndexAux z ts + 1

/-- getColorIndex from the source: index into HEIGHT_COLORS_RGB for z. -/
def getColorIndex (z : ℚ) : ℕ :=
  getColorIndexAux z HEIGHT_THRESHOLDS

/-- A 3-component vector, used for mesh position and rotation. -/
structure Vec3 where
  x : ℚ
  y : ℚ
  z : ℚ

/-- The adcMesh argument of update: an Object3D with position and rotation. -/
structure AdcMesh where
  position : Vec3
  rotation : Vec3

/-- The state of the THREE.Points object built by createPointCloud: the two
geometry attribute arrays, the draw range, the needsUpdate flags and the
shader uniforms of the material. -/
structure PointsObj where
  positions : ℕ → ℚ
  colors : ℕ → ℚ
  drawStart : ℕ
  drawCount : ℕ
  posNeedsUpdate : Bool
  colNeedsUpdate : Bool
  uOffsetX : ℚ
  uOffsetY : ℚ
  uOffsetZ : ℚ
  uRotationZ : ℚ
  uOpacity : ℚ
  uPointScale : ℚ

/-- createPointCloud: zero-filled Float32Array attributes, draw range (0, 0),
and the initial uniform values of the ShaderMaterial. -/
def createPointCloud : PointsObj :=
  { positions := fun _ => 0
  , colors := fun _ => 0
  , drawStart := 0
  , drawCount := 0
  , posNeedsUpdate := false
  , colNeedsUpdate := false
  , uOffsetX := 0.0
  , uOffsetY := 0.0
  , uOffsetZ := 0.0
  , uRotationZ := 0.0
  , uOpacity := 0.7
  , uPointScale := 1.0 }

/-- The PointCloud class state: this.points (null before the first
initialize call) and this.initialized, modelled as the field inited. -/
structure PointCloud where
  points : Option PointsObj
  inited : Bool

/-- The initialize method of PointCloud: unconditionally assigns a fresh
createPointCloud result to this.points and sets this.initialized to true.
There is no guard on this.initialized inside the method. -/
def PointCloud.init (_pc : PointCloud) : PointCloud :=
  { points := some createPointCloud, inited := true }

/-- In-place write of one array component, modelling array[i] = v. -/
def fwrite (a : ℕ → ℚ) (i : ℕ) (v : ℚ) : ℕ → ℚ :=
  fun j => if j = i then v else a j

/-- One iteration of the update loop at point index i: read (x, y, z) from
the flat coordinate list, write position (x, y, z + 0.8) at slot i, and
write the RGB triplet of the height band of z at slot i. -/
def writePoint (num : List ℚ) (acc : (ℕ → ℚ) × (ℕ → ℚ)) (i : ℕ) :
    (ℕ → ℚ) × (ℕ → ℚ) :=
  let x := num.getD (i * 3) 0
  let y := num.getD (i * 3 + 1) 0
  let z := num.getD (i * 3 + 2) 0
  let idx := i * 3
  let positions := fwrite (fwrite (fwrite acc.1 idx x) (idx + 1) y) (idx + 2) (z + 0.8)
  let colorRgb := HEIGHT_COLORS_RGB.getD (getColorIndex z) (0, 0, 0)
  let colors := fwrite (fwrite (fwrite acc.2 idx colorRgb.1) (idx + 1) colorRgb.2.1)
    (idx + 2) colorRgb.2.2
  (positions, colors)

/-- The warning text emitted by update on a malformed coordinate list. -/
def warnMsg : String := "PointCloud length should be multiples of 3!"

/-- The body of update after both guards (source lines 123 to 155): compute
total, run the write loop over the point indices below total, set the draw
range to (0, total), raise the needsUpdate flags, and store the pose and
the point scale into the shader uniforms. -/
def updateBody (num : List ℚ) (adcMesh : AdcMesh) (windowInnerHeight : ℚ)
    (o : PointsObj) : PointsObj :=
  let pointCloudSize := num.length / 3
  let total := min pointCloudSize MAX_POINTS
  let arrays := (List.range total).foldl (writePoint num) (o.positions, o.colors)
  { o with
    positions := arrays.1
  , colors := arrays.2
  , drawStart := 0
  , drawCount := total
  , posNeedsUpdate := true
  , colNeedsUpdate := true
  , uOffsetX := adcMesh.position.x
  , uOffsetY := adcMesh.position.y
  , uOffsetZ := adcMesh.position.z
  , uRotationZ := adcMesh.rotation.y
  , uPointScale := windowInnerHeight / 2.0 }

/-- The update method of PointCloud: return immediately (no warning) when
this.points is null; warn and return when the flat coordinate list length
is not a multiple of 3; otherwise run the update body. The second
component collects the console warnings emitted by the call. -/
def PointCloud.update (pc : PointCloud) (num : List ℚ) (adcMesh : AdcMesh)
    (windowInnerHeight : ℚ) : PointCloud × List String :=
  match pc with
  | ⟨none, _⟩ => (pc, [])
  | ⟨some o, b⟩ =>
    if num.length % 3 ≠ 0 then (pc, [warnMsg])
    else (⟨some (updateBody num adcMesh windowInnerHeight o), b⟩, [])

/-
Dynamic obstacle manager (src/src/store/dynamic_obstacle_manager.js) and
its constants (utils/dynamic_obstacle_constants).
-/

/-- ObstacleType from dynamic_obstacle_constants. -/
inductive ObstacleType where
  | VEHICLE
  | PEDESTRIAN
  | BICYCLE
  | UNKNOWN
deriving DecidableEq

/-- ObstacleState from dynamic_obstacle_constants. -/
inductive ObstacleState where
  | IDLE
  | MOVING
  | FINISHED
deriving DecidableEq

/-- TriggerType from dynamic_obstacle_constants. -/
inductive TriggerType where
  | REACH_POSITION
  | DISTANCE_TO_EGO
  | TIME_DELAY
deriving DecidableEq

/-- The reachPosition record inside a trigger. -/
structure ReachPosition where
  x : ℚ
  y : ℚ
  radius : ℚ
deriving DecidableEq

/-- The trigger record of an obstacle. -/
structure Trigger where
  type : TriggerType
  timeDelay : ℚ
  distanceToEgo : ℚ
  reachPosition : ReachPosition
deriving DecidableEq

/-- An obstacle record as built by addObstacle. -/
structure Obstacle where
  id : String
  type : ObstacleType
  state : ObstacleState
  polygonVertices : List (ℚ × ℚ)
  trajectory : List (ℚ × ℚ)
  trigger : Trigger
deriving DecidableEq

/-- The observable state of a DynamicObstacleManager instance. -/
structure DynamicObstacleManager where
  obstacles : List Obstacle
  isEditing : Bool
  editingObstacleId : Option String
deriving DecidableEq

/-- The id string built by addObstacle from the module counter: the JS
template literal interpolating the counter in decimal. -/
def mkObstacleId (n : ℕ) : String := "dyn_obs_" ++ Nat.repr n

/-- The obstacle literal constructed by addObstacle for a given id. -/
def newObstacle (id : String) : Obstacle :=
  { id := id
  , type := ObstacleType.VEHICLE
  , state := ObstacleState.IDLE
  , polygonVertices := []
  , trajectory := []
  , trigger :=
    { type := TriggerType.TIME_DELAY
    , timeDelay := 3.0
    , distanceToEgo := 20.0
    , reachPosition := { x := 0, y := 0, radius := 5.0 } } }

/-- addObstacle: reads and post-increments the module-global counter nextId,
appends the new obstacle to this.obstacles, and returns the id. The result
carries the new counter, the new manager state, and the returned id. -/
def addObstacle (nextId : ℕ) (m : DynamicObstacleManager) :
    ℕ × DynamicObstacleManager × String :=
  let id := mkObstacleId nextId
  (nextId + 1, { m with obstacles := m.obstacles ++ [newObstacle id] }, id)

/-- removeObstacle: filters out the obstacle with the given id and, when it
was being edited, resets the editing state. -/
def removeObstacle (m : DynamicObstacleManager) (id : String) :
    DynamicObstacleManager :=
  let obstacles := m.obstacles.filter (fun o => o.id ≠ id)
  if m.editingObstacleId = some id then
    { m with obstacles := obstacles, editingObstacleId := none, isEditing := false }
  else
    { m with obstacles := obstacles }

/-- The state of a freshly constructed DynamicObstacleManager. -/
def newManager : DynamicObstacleManager :=
  { obstacles := [], isEditing := false, editingObstacleId := none }

/-- The module-level state: the global nextId counter together with every
manager instance constructed so far. -/
structure DynObsModule where
  nextId : ℕ
  managers : List DynamicObstacleManager

/-- Operations a client can perform against the module: construct a manager,
call addObstacle on the manager at a given index, or call removeObstacle. -/
inductive MgrOp where
  | newMgr : MgrOp
  | add : ℕ → MgrOp
  | remove : ℕ → String → MgrOp

/-- One operation applied to the module state; the optional string is the id
returned by addObstacle. Operations naming a nonexistent manager index do
nothing. -/
def stepOp (s : DynObsModule) : MgrOp → DynObsModule × Option String
  | MgrOp.newMgr => ({ s with managers := s.managers ++ [newManager] }, none)
  | MgrOp.add i =>
    match s.managers[i]? with
    | none => (s, none)
    | some m =>
      let r := addObstacle s.nextId m
      (⟨r.1, s.managers.set i r.2.1⟩, some r.2.2)
  | MgrOp.remove i id =>
    match s.managers[i]? with
    | none => (s, none)
    | some m => (⟨s.nextId, s.managers.set i (removeObstacle m id)⟩, none)

/-- Run a list of operations, collecting the ids returned by addObstacle in
call order. -/
def runOps (s : DynObsModule) : List MgrOp → DynObsModule × List String
  | [] => (s, [])
  | op :: ops =>
    let r := stepOp s op
    let rest := runOps r.1 ops
    (rest.1, r.2.toList ++ rest.2)

/-- The module state at load time: nextId is 1 and no manager exists. -/
def moduleStart : DynObsModule := ⟨1, []⟩

/-
Helper definitions used by the proofs and the witnesses.
-/

/-- Numeric value of a decimal digit character. -/
def digitVal (c : Char) : ℕ := c.toNat - 48

/-- Decode a most-significant-first decimal digit string. -/
def decodeDigits (l : List Char) : ℕ :=
  l.foldl (fun a c => 10 * a + digitVal c) 0

/-- An id produced by some counter value below c. -/
def idBound (c : ℕ) (id : String) : Prop := ∃ k, k < c ∧ id = mkObstacleId k

/-- Invariant of a manager relative to the counter c: obstacle ids are
pairwise distinct and each was produced by a counter value below c. -/
def MgrInv (c : ℕ) (m : DynamicObstacleManager) : Prop :=
  (m.obstacles.map Obstacle.id).Nodup ∧ ∀ ob ∈ m.obstacles, idBound c ob.id

/-- Invariant of the module state. -/
def ModInv (s : DynObsModule) : Prop := ∀ m ∈ s.managers, MgrInv s.nextId m

/-- A zero pose for witnesses. -/
def adc0 : AdcMesh := ⟨⟨0, 0, 0⟩, ⟨0, 0, 0⟩⟩

/-- A nonzero pose for witnesses. -/
def adc1 : AdcMesh := ⟨⟨5, 6, 7⟩, ⟨0, 2, 0⟩⟩

/-- A malformed cloud: 10 coordinates, not a multiple of 3. -/
def cloud10 : List ℚ := List.replicate 10 0

/-- A one-point cloud. -/
def cloud3 : List ℚ := [1, 2, 3]

/-- A well-formed cloud of 200005 points, 5 beyond capacity. -/
def bigCloud : List ℚ := List.replicate 600015 0

/-- A concrete operation sequence for the manager witnesses. -/
def ops0 : List MgrOp :=
  [ MgrOp.newMgr, MgrOp.add 0, MgrOp.add 0
  , MgrOp.remove 0 (mkObstacleId 1), MgrOp.newMgr, MgrOp.add 1, MgrOp.add 0 ]

/-
Theorems. Generic facts about the threshold scan come first.
-/

lemma getColorIndexAux_eq_findIdx (z : ℚ) (l : List ℚ) :
    getColorIndexAux z l = l.findIdx (fun t => decide (z < t)) := by
  induction l with
  | nil => rfl
  | cons t ts ih => by_cases h : z < t <;> simp [getColorIndexAux, List.findIdx_cons, h, ih]

lemma getColorIndexAux_le (z : ℚ) (l : List ℚ) : getColorIndexAux z l ≤ l.length := by
  induction l with
  | nil => simp [getColorIndexAux]
  | cons t ts ih =>
    by_cases h : z < t
    · simp [getColorIndexAux, h]
    · simp only [getColorIndexAux, if_neg h, List.length_cons]
      omega

lemma getColorIndexAux_first (z : ℚ) (l : List ℚ) :
    ∀ j, j < getColorIndexAux z l → ¬ z < l.getD j 0 := by
  induction l with
  | nil => intro j hj; simp [getColorIndexAux] at hj
  | cons t ts ih =>
    intro j hj
    by_cases h : z < t
    · simp [getColorIndexAux, h] at hj
    · cases j with
      | zero => simpa using h
      | succ j2 =>
        simp only [getColorIndexAux, if_neg h] at hj
        simpa using ih j2 (by omega)

lemma getColorIndexAux_found (z : ℚ) (l : List ℚ) :
    getColorIndexAux z l < l.length → z < l.getD (getColorIndexAux z l) 0 := by
  induction l with
  | nil => intro h; simp [getColorIndexAux] at h
  | cons t ts ih =>
    intro h
    by_cases hz : z < t
    · simp [getColorIndexAux, hz]
    · simp only [getColorIndexAux, if_neg hz, List.length_cons] at h ⊢
      simpa using ih (by omega)

/-- C3: getColorIndex returns the index of the first threshold strictly
greater than z (no earlier threshold exceeds z, and the selected one does
when it exists), the overflow index when no threshold is greater; in
particular 0.3 maps to band 0, 0.5 maps to band 1, and 10.0 maps to the
overflow band, the last color entry. -/
theorem claim_c3 :
    (∀ z : ℚ, getColorIndex z = HEIGHT_THRESHOLDS.findIdx (fun t => decide (z < t)))
    ∧ (∀ z : ℚ, ∀ j, j < getColorIndex z → ¬ z < HEIGHT_THRESHOLDS.getD j 0)
    ∧ (∀ z : ℚ, getColorIndex z < HEIGHT_THRESHOLDS.length →
        z < HEIGHT_THRESHOLDS.getD (getColorIndex z) 0)
    ∧ getColorIndex 0.3 = 0 ∧ getColorIndex 0.5 = 1
    ∧ getColorIndex 10 = HEIGHT_COLORS_RGB.length - 1 := by
  exact ⟨fun z => getColorIndexAux_eq_findIdx z _,
    fun z => getColorIndexAux_first z _,
    fun z => getColorIndexAux_found z _,
    by norm_num [getColorIndex, getColorIndexAux, HEIGHT_THRESHOLDS],
    by norm_num [getColorIndex, getColorIndexAux, HEIGHT_THRESHOLDS],
    by norm_num [getColorIndex, getColorIndexAux, HEIGHT_THRESHOLDS, HEIGHT_COLORS_RGB]⟩

/-- C3 witness: at z equal to 0.7 the classifier picks band 1, threshold
0 does not exceed 0.7 and threshold 1 does. -/
theorem claim_c3_witness :
    ¬ (0.7 : ℚ) < HEIGHT_THRESHOLDS.getD 0 0
    ∧ (0.7 : ℚ) < HEIGHT_THRESHOLDS.getD (getColorIndex 0.7) 0 :=
  ⟨claim_c3.2.1 0.7 0 (by norm_num [getColorIndex, getColorIndexAux, HEIGHT_THRESHOLDS]),
   claim_c3.2.2.1 0.7
     (by norm_num [getColorIndex, getColorIndexAux, HEIGHT_THRESHOLDS])⟩

/-- C9: the height classifier is total over the rationals and always lands
inside the 7-entry color table, so the per-point color lookup never reads
out of bounds. -/
theorem claim_c9 :
    (∀ z : ℚ, getColorIndex z < HEIGHT_COLORS_RGB.length)
    ∧ HEIGHT_COLORS_RGB.length = 7
    ∧ (∀ z : ℚ, getColorIndex z ≤ 6) := by
  have h : ∀ z : ℚ, getColorIndex z ≤ 6 := fun z => by
    simpa [HEIGHT_THRESHOLDS] using getColorIndexAux_le z HEIGHT_THRESHOLDS
  refine ⟨fun z => ?_, by decide, h⟩
  have := h z
  simp only [HEIGHT_COLORS_RGB, List.length_cons, List.length_nil]
  omega

lemma writePoint_fst (num : List ℚ) (acc : (ℕ → ℚ) × (ℕ → ℚ)) (i j : ℕ) :
    (writePoint num acc i).1 j
      = if j = i * 3 + 2 then num.getD (i * 3 + 2) 0 + 0.8
        else if j = i * 3 + 1 then num.getD (i * 3 + 1) 0
        else if j = i * 3 then num.getD (i * 3) 0
        else acc.1 j := by
  simp [writePoint, fwrite]

lemma writePoint_snd (num : List ℚ) (acc : (ℕ → ℚ) × (ℕ → ℚ)) (i j : ℕ) :
    (writePoint num acc i).2 j
      = if j = i * 3 + 2 then
          (HEIGHT_COLORS_RGB.getD (getColorIndex (num.getD (i * 3 + 2) 0)) (0, 0, 0)).2.2
        else if j = i * 3 + 1 then
          (HEIGHT_COLORS_RGB.getD (getColorIndex (num.getD (i * 3 + 2) 0)) (0, 0, 0)).2.1
        else if j = i * 3 then
          (HEIGHT_COLORS_RGB.getD (getColorIndex (num.getD (i * 3 + 2) 0)) (0, 0, 0)).1
        else acc.2 j := by
  simp [writePoint, fwrite]

lemma writeLoop_ge (num : List ℚ) (p c : ℕ → ℚ) (n j : ℕ) (h : 3 * n ≤ j) :
    ((List.range n).foldl (writePoint num) (p, c)).1 j = p j
    ∧ ((List.range n).foldl (writePoint num) (p, c)).2 j = c j := by
  induction n with
  | zero => simp
  | succ n ih =>
    have hih := ih (by omega)
    rw [List.range_succ, List.foldl_append, List.foldl_cons, List.foldl_nil]
    constructor
    · rw [writePoint_fst, if_neg (by omega), if_neg (by omega), if_neg (by omega)]
      exact hih.1
    · rw [writePoint_snd, if_neg (by omega), if_neg (by omega), if_neg (by omega)]
      exact hih.2

lemma writeLoop_lt (num : List ℚ) (p c : ℕ → ℚ) (n i : ℕ) (h : i < n) :
    ((List.range n).foldl (writePoint num) (p, c)).1 (i * 3) = num.getD (i * 3) 0
    ∧ ((List.range n).foldl (writePoint num) (p, c)).1 (i * 3 + 1) = num.getD (i * 3 + 1) 0
    ∧ ((List.range n).foldl (writePoint num) (p, c)).1 (i * 3 + 2)
        = num.getD (i * 3 + 2) 0 + 0.8
    ∧ ((List.range n).foldl (writePoint num) (p, c)).2 (i * 3)
        = (HEIGHT_COLORS_RGB.getD (getColorIndex (num.getD (i * 3 + 2) 0)) (0, 0, 0)).1
    ∧ ((List.range n).foldl (writePoint num) (p, c)).2 (i * 3 + 1)
        = (HEIGHT_COLORS_RGB.getD (getColorIndex (num.getD (i * 3 + 2) 0)) (0, 0, 0)).2.1
    ∧ ((List.range n).foldl (writePoint num) (p, c)).2 (i * 3 + 2)
        = (HEIGHT_COLORS_RGB.getD (getColorIndex (num.getD (i * 3 + 2) 0)) (0, 0, 0)).2.2 := by
  induction n with
  | zero => omega
  | succ n ih =>
    rw [List.range_succ, List.foldl_append, List.foldl_cons, List.foldl_nil]
    have hcases : i < n ∨ i = n := by omega
    rcases hcases with h2 | rfl
    · have hih := ih h2
      refine ⟨?_, ?_, ?_, ?_, ?_, ?_⟩
      · rw [writePoint_fst, if_neg (by omega), if_neg (by omega), if_neg (by omega)]
        exact hih.1
      · rw [writePoint_fst, if_neg (by omega), if_neg (by omega), if_neg (by omega)]
        exact hih.2.1
      · rw [writePoint_fst, if_neg (by omega), if_neg (by omega), if_neg (by omega)]
        exact hih.2.2.1
      · rw [writePoint_snd, if_neg (by omega), if_neg (by omega), if_neg (by omega)]
        exact hih.2.2.2.1
      · rw [writePoint_snd, if_neg (by omega), if_neg (by omega), if_neg (by omega)]
        exact hih.2.2.2.2.1
      · rw [writePoint_snd, if_neg (by omega), if_neg (by omega), if_neg (by omega)]
        exact hih.2.2.2.2.2
    · refine ⟨?_, ?_, ?_, ?_, ?_, ?_⟩
      · rw [writePoint_fst, if_neg (by omega), if_neg (by omega), if_pos rfl]
      · rw [writePoint_fst, if_neg (by omega), if_pos rfl]
      · rw [writePoint_fst, if_pos rfl]
      · rw [writePoint_snd, if_neg (by omega), if_neg (by omega), if_pos rfl]
      · rw [writePoint_snd, if_neg (by omega), if_pos rfl]
      · rw [writePoint_snd, if_pos rfl]

lemma update_some_eq (num : List ℚ) (adc : AdcMesh) (wh : ℚ) (o : PointsObj) (b : Bool)
    (h : num.length % 3 = 0) :
    PointCloud.update ⟨some o, b⟩ num adc wh
      = (⟨some (updateBody num adc wh o), b⟩, []) := by
  have hnot : ¬ num.length % 3 ≠ 0 := by omega
  simp only [PointCloud.update, if_neg hnot]

lemma update_some_warn (num : List ℚ) (adc : AdcMesh) (wh : ℚ) (o : PointsObj) (b : Bool)
    (h : num.length % 3 ≠ 0) :
    PointCloud.update ⟨some o, b⟩ num adc wh = (⟨some o, b⟩, [warnMsg]) := by
  simp only [PointCloud.update, if_pos h]

/-- C2: on a well-formed cloud, update publishes a draw range of exactly
the prefix from 0 of length total, where total is the minimum of the point
count and MAX_POINTS, total never exceeds the capacity, and no warning is
emitted. -/
theorem claim_c2 : ∀ (num : List ℚ) (adc : AdcMesh) (wh : ℚ) (o : PointsObj) (b : Bool),
    num.length % 3 = 0 →
    ((PointCloud.update ⟨some o, b⟩ num adc wh).1.points.map
        (fun r => (r.drawStart, r.drawCount)))
      = some (0, min (num.length / 3) MAX_POINTS)
    ∧ min (num.length / 3) MAX_POINTS ≤ MAX_POINTS
    ∧ (PointCloud.update ⟨some o, b⟩ num adc wh).2 = [] := by
  intro num adc wh o b h
  rw [update_some_eq num adc wh o b h]
  refine ⟨rfl, ?_, rfl⟩
  exact Nat.min_le_right _ _

/-- C2 witness: a cloud of 200005 points yields a draw range of exactly
200000, starting at 0. -/
theorem claim_c2_witness :
    ((PointCloud.update ⟨some createPointCloud, true⟩ bigCloud adc0 100).1.points.map
        (fun r => (r.drawStart, r.drawCount)))
      = some (0, 200000) := by
  have hlen : bigCloud.length = 600015 := by simp only [bigCloud, List.length_replicate]
  have hmod : bigCloud.length % 3 = 0 := by rw [hlen]
  have h := (claim_c2 bigCloud adc0 100 createPointCloud true hmod).1
  have hmin : min (600015 / 3 : ℕ) MAX_POINTS = 200000 := by
    rw [Nat.min_def]
    norm_num [MAX_POINTS]
  rw [h, hlen, hmin]

/-- C4: for every point index i below total, update writes position
(x, y, z + 0.8) into position slot i — the fixed vertical lift — and the
RGB triplet of the band of the raw z value into color slot i, so the
classification uses z and not z + 0.8. -/
theorem claim_c4 : ∀ (num : List ℚ) (adc : AdcMesh) (wh : ℚ) (o : PointsObj) (b : Bool)
    (i : ℕ), num.length % 3 = 0 → i < min (num.length / 3) MAX_POINTS →
    (PointCloud.update ⟨some o, b⟩ num adc wh).1.points = some (updateBody num adc wh o)
    ∧ (updateBody num adc wh o).positions (i * 3) = num.getD (i * 3) 0
    ∧ (updateBody num adc wh o).positions (i * 3 + 1) = num.getD (i * 3 + 1) 0
    ∧ (updateBody num adc wh o).positions (i * 3 + 2) = num.getD (i * 3 + 2) 0 + 0.8
    ∧ (updateBody num adc wh o).colors (i * 3)
        = (HEIGHT_COLORS_RGB.getD (getColorIndex (num.getD (i * 3 + 2) 0)) (0, 0, 0)).1
    ∧ (updateBody num adc wh o).colors (i * 3 + 1)
        = (HEIGHT_COLORS_RGB.getD (getColorIndex (num.getD (i * 3 + 2) 0)) (0, 0, 0)).2.1
    ∧ (updateBody num adc wh o).colors (i * 3 + 2)
        = (HEIGHT_COLORS_RGB.getD (getColorIndex (num.getD (i * 3 + 2) 0)) (0, 0, 0)).2.2 := by
  intro num adc wh o b i h hi
  have hbody := writeLoop_lt num o.positions o.colors (min (num.length / 3) MAX_POINTS) i hi
  refine ⟨?_, hbody.1, hbody.2.1, hbody.2.2.1, hbody.2.2.2.1, hbody.2.2.2.2.1,
    hbody.2.2.2.2.2⟩
  rw [update_some_eq num adc wh o b h]

/-- C4 witness: the single point (1, 2, 3) is stored with z lifted to 3.8
while its color comes from the band of the raw z value 3. -/
theorem claim_c4_witness :
    (updateBody cloud3 adc1 100 createPointCloud).positions (0 * 3 + 2)
      = cloud3.getD (0 * 3 + 2) 0 + 0.8
    ∧ (updateBody cloud3 adc1 100 createPointCloud).colors (0 * 3)
      = (HEIGHT_COLORS_RGB.getD (getColorIndex (cloud3.getD (0 * 3 + 2) 0)) (0, 0, 0)).1 :=
  ⟨(claim_c4 cloud3 adc1 100 createPointCloud true 0 (by decide) (by decide)).2.2.2.1,
   (claim_c4 cloud3 adc1 100 createPointCloud true 0 (by decide) (by decide)).2.2.2.2.1⟩

/-- C5: the pose is never baked into per-point data: the buffer contents
and draw range produced by update do not depend on the adcMesh argument,
and the pose goes only to the translation and vertical-rotation uniforms,
while uOpacity is untouched and uPointScale comes from the window height. -/
theorem claim_c5 : ∀ (num : List ℚ) (a1 a2 : AdcMesh) (wh : ℚ) (o : PointsObj) (b : Bool),
    ((PointCloud.update ⟨some o, b⟩ num a1 wh).1.points.map
        (fun r => (r.positions, r.colors, r.drawStart, r.drawCount)))
      = ((PointCloud.update ⟨some o, b⟩ num a2 wh).1.points.map
        (fun r => (r.positions, r.colors, r.drawStart, r.drawCount)))
    ∧ (updateBody num a1 wh o).uOffsetX = a1.position.x
    ∧ (updateBody num a1 wh o).uOffsetY = a1.position.y
    ∧ (updateBody num a1 wh o).uOffsetZ = a1.position.z
    ∧ (updateBody num a1 wh o).uRotationZ = a1.rotation.y
    ∧ (updateBody num a1 wh o).uOpacity = o.uOpacity
    ∧ (updateBody num a1 wh o).uPointScale = wh / 2.0 := by
  intro num a1 a2 wh o b
  refine ⟨?_, rfl, rfl, rfl, rfl, rfl, rfl⟩
  by_cases h : num.length % 3 = 0
  · rw [update_some_eq num a1 wh o b h, update_some_eq num a2 wh o b h]
    rfl
  · have h2 : num.length % 3 ≠ 0 := h
    rw [update_some_warn num a1 wh o b h2, update_some_warn num a2 wh o b h2]

/-- C6: slots at or beyond total keep their previous contents — there is
no zero-fill pass — while the published draw range is exactly the prefix
of length total. -/
theorem claim_c6 : ∀ (num : List ℚ) (adc : AdcMesh) (wh : ℚ) (o : PointsObj) (b : Bool)
    (j : ℕ), num.length % 3 = 0 → 3 * min (num.length / 3) MAX_POINTS ≤ j →
    (PointCloud.update ⟨some o, b⟩ num adc wh).1.points = some (updateBody num adc wh o)
    ∧ (updateBody num adc wh o).positions j = o.positions j
    ∧ (updateBody num adc wh o).colors j = o.colors j
    ∧ (updateBody num adc wh o).drawStart = 0
    ∧ (updateBody num adc wh o).drawCount = min (num.length / 3) MAX_POINTS := by
  intro num adc wh o b j h hj
  have hge := writeLoop_ge num o.positions o.colors (min (num.length / 3) MAX_POINTS) j hj
  refine ⟨?_, hge.1, hge.2, rfl, rfl⟩
  rw [update_some_eq num adc wh o b h]

/-- C6 witness: after ingesting the one-point cloud, component 3 — the
first component beyond the active prefix — still holds the previous
(zero-initialized) value. -/
theorem claim_c6_witness :
    (updateBody cloud3 adc1 100 createPointCloud).positions 3
      = createPointCloud.positions 3
    ∧ (updateBody cloud3 adc1 100 createPointCloud).colors 3
      = createPointCloud.colors 3 :=
  ⟨(claim_c6 cloud3 adc1 100 createPointCloud true 3 (by decide) (by decide)).2.1,
   (claim_c6 cloud3 adc1 100 createPointCloud true 3 (by decide) (by decide)).2.2.1⟩

/-- C8: calling update while the internal points object is still null is a
silent no-op: the state is returned untouched and no warning is emitted,
for every cloud and pose argument. -/
theorem claim_c8 : ∀ (num : List ℚ) (adc : AdcMesh) (wh : ℚ) (b : Bool),
    PointCloud.update ⟨none, b⟩ num adc wh = (⟨none, b⟩, []) := by
  intro num adc wh b
  rfl

/-- C1 counterexample: a malformed cloud of 10 coordinates passed to an
update call on a PointCloud whose points object is null produces no
warning at all, so the claim that every malformed-length call warns is
false as stated. -/
theorem claim_c1_counterexample :
    cloud10.length % 3 ≠ 0
    ∧ PointCloud.update ⟨none, false⟩ cloud10 adc0 100 = (⟨none, false⟩, [])
    ∧ (PointCloud.update ⟨none, false⟩ cloud10 adc0 100).2 ≠ [warnMsg] := by
  refine ⟨by decide, rfl, ?_⟩
  intro h
  have h2 : ([] : List String) = [warnMsg] := h
  exact List.noConfusion h2

/-- C1 amended: on a PointCloud whose points object is non-null, an update
call with a coordinate list whose length is not a multiple of 3 leaves the
whole state — draw range, both arrays, and every uniform — exactly as it
was and emits exactly the warning; when the points object is null the call
is instead a silent no-op. -/
theorem claim_c1_amended : ∀ (num : List ℚ) (adc : AdcMesh) (wh : ℚ) (o : PointsObj)
    (b : Bool), num.length % 3 ≠ 0 →
    PointCloud.update ⟨some o, b⟩ num adc wh = (⟨some o, b⟩, [warnMsg]) := by
  intro num adc wh o b h
  exact update_some_warn num adc wh o b h

/-- C1 witness: the malformed 10-coordinate cloud on an initialized state
leaves the object unchanged and emits the warning. -/
theorem claim_c1_witness :
    PointCloud.update ⟨some createPointCloud, true⟩ cloud10 adc0 100
      = (⟨some createPointCloud, true⟩, [warnMsg]) :=
  claim_c1_amended cloud10 adc0 100 createPointCloud true (by decide)

/-- C7 counterexample: initialize, ingest a one-point cloud (draw count
becomes 1), then call initialize again: the draw count resets to 0 and the
points object changes, so the second call is not a no-op that leaves the
already-created object unchanged. -/
theorem claim_c7_counterexample :
    ((PointCloud.update (PointCloud.init ⟨none, false⟩) cloud3 adc0 100).1.points.map
        PointsObj.drawCount) = some 1
    ∧ ((PointCloud.init
          ((PointCloud.update (PointCloud.init ⟨none, false⟩) cloud3 adc0 100).1)).points.map
        PointsObj.drawCount) = some 0
    ∧ (PointCloud.init
          ((PointCloud.update (PointCloud.init ⟨none, false⟩) cloud3 adc0 100).1)).points
        ≠ (PointCloud.update (PointCloud.init ⟨none, false⟩) cloud3 adc0 100).1.points := by
  have h1 : ((PointCloud.update (PointCloud.init ⟨none, false⟩) cloud3 adc0 100).1.points.map
      PointsObj.drawCount) = some 1 := by
    have he := update_some_eq cloud3 adc0 100 createPointCloud true (by decide)
    show ((PointCloud.update ⟨some createPointCloud, true⟩ cloud3 adc0 100).1.points.map
      PointsObj.drawCount) = some 1
    rw [he]
    show some (min (cloud3.length / 3) MAX_POINTS) = some 1
    decide
  have h2 : ((PointCloud.init
      ((PointCloud.update (PointCloud.init ⟨none, false⟩) cloud3 adc0 100).1)).points.map
        PointsObj.drawCount) = some 0 := rfl
  refine ⟨h1, h2, fun heq => ?_⟩
  rw [heq] at h2
  rw [h1] at h2
  simp at h2

/-- C7 amended: initialize unconditionally rebuilds the object: every call
leaves the state equal to the same freshly created object, so immediately
repeated calls agree with a single one, but a call made after updates
resets the object rather than leaving it unchanged; the one-time guard
must live at the call site, via the initialized flag the method sets. -/
theorem claim_c7_amended : ∀ pc pc2 : PointCloud,
    PointCloud.init pc = ⟨some createPointCloud, true⟩
    ∧ PointCloud.init (PointCloud.init pc) = PointCloud.init pc
    ∧ PointCloud.init pc = PointCloud.init pc2
    ∧ (PointCloud.init pc).inited = true := by
  intro pc pc2
  exact ⟨rfl, rfl, rfl, rfl⟩

lemma digitVal_digitChar (k : ℕ) (h : k < 10) : digitVal (Nat.digitChar k) = k := by
  interval_cases k <;> rfl

lemma toDigitsCore_decode (fuel : ℕ) : ∀ (n : ℕ) (acc : List Char), n < fuel →
    ∃ m : ℕ, n < 10 ^ m ∧ ∀ a : ℕ,
      (Nat.toDigitsCore 10 fuel n acc).foldl (fun x c => 10 * x + digitVal c) a
        = acc.foldl (fun x c => 10 * x + digitVal c) (a * 10 ^ m + n) := by
  induction fuel with
  | zero => intro n acc h; omega
  | succ fuel ih =>
    intro n acc h
    by_cases hdiv : n / 10 = 0
    · refine ⟨1, by omega, fun a => ?_⟩
      have hn : n % 10 = n := by omega
      have hstep : Nat.toDigitsCore 10 (fuel + 1) n acc = Nat.digitChar (n % 10) :: acc := by
        simp only [Nat.toDigitsCore]
        rw [if_pos hdiv]
      rw [hstep, List.foldl_cons, digitVal_digitChar (n % 10) (by omega), hn]
      congr 1
      rw [pow_one]
      ring
    · have hlt : n / 10 < fuel := by omega
      obtain ⟨m, hm, hfold⟩ := ih (n / 10) (Nat.digitChar (n % 10) :: acc) hlt
      refine ⟨m + 1, ?_, fun a => ?_⟩
      · rw [pow_succ]
        omega
      · have hstep : Nat.toDigitsCore 10 (fuel + 1) n acc
            = Nat.toDigitsCore 10 fuel (n / 10) (Nat.digitChar (n % 10) :: acc) := by
          simp only [Nat.toDigitsCore]
          rw [if_neg hdiv]
        rw [hstep, hfold a, List.foldl_cons, digitVal_digitChar (n % 10) (by omega)]
        congr 1
        have hdm : 10 * (n / 10) + n % 10 = n := by omega
        rw [pow_succ]
        calc 10 * (a * 10 ^ m + n / 10) + n % 10
            = a * (10 ^ m * 10) + (10 * (n / 10) + n % 10) := by ring
          _ = a * (10 ^ m * 10) + n := by rw [hdm]

lemma decodeDigits_toDigits (n : ℕ) : decodeDigits (Nat.toDigits 10 n) = n := by
  obtain ⟨m, _, hfold⟩ := toDigitsCore_decode (n + 1) n [] (Nat.lt_succ_self n)
  have h := hfold 0
  simp only [List.foldl_nil] at h
  calc decodeDigits (Nat.toDigits 10 n)
      = (Nat.toDigitsCore 10 (n + 1) n []).foldl (fun x c => 10 * x + digitVal c) 0 := rfl
    _ = 0 * 10 ^ m + n := h
    _ = n := by ring

lemma Nat_repr_inj (a b : ℕ) (h : Nat.repr a = Nat.repr b) : a = b := by
  have h2 : (⟨Nat.toDigits 10 a⟩ : String) = ⟨Nat.toDigits 10 b⟩ := h
  injection h2 with hdata
  have h3 := congrArg decodeDigits hdata
  rwa [decodeDigits_toDigits, decodeDigits_toDigits] at h3

lemma mkObstacleId_inj (a b : ℕ) (h : mkObstacleId a = mkObstacleId b) : a = b := by
  apply Nat_repr_inj
  have hd : "dyn_obs_".data ++ (Nat.repr a).data = "dyn_obs_".data ++ (Nat.repr b).data :=
    congrArg String.data h
  exact String.ext (List.append_cancel_left hd)

lemma idBound_mono (c c2 : ℕ) (h : c ≤ c2) (id : String) (hb : idBound c id) :
    idBound c2 id := by
  obtain ⟨k, hk, he⟩ := hb
  exact ⟨k, by omega, he⟩

lemma MgrInv_mono (c c2 : ℕ) (h : c ≤ c2) (m : DynamicObstacleManager)
    (hm : MgrInv c m) : MgrInv c2 m :=
  ⟨hm.1, fun ob hob => idBound_mono c c2 h ob.id (hm.2 ob hob)⟩

lemma addObstacle_keeps (c : ℕ) (m : DynamicObstacleManager) (hm : MgrInv c m) :
    MgrInv (c + 1) (addObstacle c m).2.1
    ∧ ¬ idBound c (addObstacle c m).2.2
    ∧ idBound (c + 1) (addObstacle c m).2.2 := by
  refine ⟨⟨?_, ?_⟩, ?_, ⟨c, by omega, rfl⟩⟩
  · show ((m.obstacles ++ [newObstacle (mkObstacleId c)]).map Obstacle.id).Nodup
    rw [List.map_append, List.nodup_append]
    refine ⟨hm.1, by simp, ?_⟩
    intro x hx hx2
    simp only [List.map_cons, List.map_nil, newObstacle, List.mem_singleton] at hx2
    obtain ⟨ob, hob, rfl⟩ := List.mem_map.mp hx
    obtain ⟨k, hk, he⟩ := hm.2 ob hob
    rw [he] at hx2
    have := mkObstacleId_inj k c hx2
    omega
  · intro ob hob
    rcases List.mem_append.mp hob with h1 | h2
    · exact idBound_mono c (c + 1) (by omega) ob.id (hm.2 ob h1)
    · have hob2 : ob = newObstacle (mkObstacleId c) := by simpa using h2
      rw [hob2]
      exact ⟨c, by omega, rfl⟩
  · rintro ⟨k, hk, he⟩
    have h2 : mkObstacleId c = mkObstacleId k := he
    have := mkObstacleId_inj c k h2
    omega

lemma removeObstacle_keeps (c : ℕ) (m : DynamicObstacleManager) (id : String)
    (hm : MgrInv c m) : MgrInv c (removeObstacle m id) := by
  have hn : ((m.obstacles.filter (fun o => o.id ≠ id)).map Obstacle.id).Nodup :=
    List.Nodup.sublist ((List.filter_sublist m.obstacles).map Obstacle.id) hm.1
  have hb : ∀ ob ∈ m.obstacles.filter (fun o => o.id ≠ id), idBound c ob.id :=
    fun ob hob => hm.2 ob (List.mem_of_mem_filter hob)
  unfold removeObstacle
  split
  · exact ⟨hn, hb⟩
  · exact ⟨hn, hb⟩

lemma stepOp_inv (s : DynObsModule) (op : MgrOp) (hs : ModInv s) :
    ModInv (stepOp s op).1
    ∧ s.nextId ≤ (stepOp s op).1.nextId
    ∧ ∀ id, (stepOp s op).2 = some id →
        idBound (stepOp s op).1.nextId id ∧ ¬ idBound s.nextId id := by
  cases op with
  | newMgr =>
    refine ⟨?_, Nat.le_refl _, ?_⟩
    · intro m hm
      rcases List.mem_append.mp hm with h1 | h2
      · exact hs m h1
      · have hm2 : m = newManager := by simpa using h2
        rw [hm2]
        exact ⟨List.nodup_nil, fun ob hob => absurd hob (List.not_mem_nil ob)⟩
    · intro id hid
      exact Option.noConfusion hid
  | add i =>
    cases hmi : s.managers[i]? with
    | none =>
      refine ⟨?_, ?_, ?_⟩
      · simp only [stepOp, hmi]
        exact hs
      · simp only [stepOp, hmi]
        exact Nat.le_refl _
      · simp only [stepOp, hmi]
        intro id hid
        exact Option.noConfusion hid
    | some m =>
      have hmem : m ∈ s.managers := List.getElem?_mem hmi
      have hadd := addObstacle_keeps s.nextId m (hs m hmem)
      refine ⟨?_, ?_, ?_⟩
      · intro m2 hm2
        simp only [stepOp, hmi] at hm2 ⊢
        rcases List.mem_or_eq_of_mem_set hm2 with h1 | h2
        · exact MgrInv_mono s.nextId (s.nextId + 1) (Nat.le_succ _) m2 (hs m2 h1)
        · rw [h2]
          exact hadd.1
      · simp only [stepOp, hmi]
        exact Nat.le_succ _
      · intro id hid
        simp only [stepOp, hmi] at hid
        have hideq : (addObstacle s.nextId m).2.2 = id := by
          injection hid
        rw [← hideq]
        constructor
        · simp only [stepOp, hmi]
          exact hadd.2.2
        · exact hadd.2.1
  | remove i rid =>
    cases hmi : s.managers[i]? with
    | none =>
      refine ⟨?_, ?_, ?_⟩
      · simp only [stepOp, hmi]
        exact hs
      · simp only [stepOp, hmi]
        exact Nat.le_refl _
      · simp only [stepOp, hmi]
        intro id hid
        exact Option.noConfusion hid
    | some m =>
      have hmem : m ∈ s.managers := List.getElem?_mem hmi
      refine ⟨?_, ?_, ?_⟩
      · intro m2 hm2
        simp only [stepOp, hmi] at hm2 ⊢
        rcases List.mem_or_eq_of_mem_set hm2 with h1 | h2
        · exact hs m2 h1
        · rw [h2]
          exact removeObstacle_keeps s.nextId m rid (hs m hmem)
      · simp only [stepOp, hmi]
        exact Nat.le_refl _
      · simp only [stepOp, hmi]
        intro id hid
        exact Option.noConfusion hid

lemma runOps_spec (ops : List MgrOp) : ∀ s : DynObsModule, ModInv s →
    ModInv (runOps s ops).1
    ∧ s.nextId ≤ (runOps s ops).1.nextId
    ∧ (runOps s ops).2.Nodup
    ∧ ∀ id ∈ (runOps s ops).2,
        idBound (runOps s ops).1.nextId id ∧ ¬ idBound s.nextId id := by
  induction ops with
  | nil =>
    intro s hs
    exact ⟨hs, Nat.le_refl _, List.nodup_nil,
      fun id hid => absurd hid (List.not_mem_nil id)⟩
  | cons op ops ih =>
    intro s hs
    obtain ⟨h1, h2, h3⟩ := stepOp_inv s op hs
    obtain ⟨g1, g2, g3, g4⟩ := ih (stepOp s op).1 h1
    have hr : runOps s (op :: ops)
        = ((runOps (stepOp s op).1 ops).1,
           (stepOp s op).2.toList ++ (runOps (stepOp s op).1 ops).2) := rfl
    rw [hr]
    refine ⟨g1, Nat.le_trans h2 g2, ?_, ?_⟩
    · cases hopt : (stepOp s op).2 with
      | none => simpa using g3
      | some nid =>
        simp only [Option.toList_some, List.singleton_append]
        rw [List.nodup_cons]
        refine ⟨fun hmem => ?_, g3⟩
        exact (g4 nid hmem).2 ((h3 nid hopt).1)
    · intro id hid
      rcases List.mem_append.mp hid with hin1 | hin2
      · have hsome : (stepOp s op).2 = some id := by
          cases hopt : (stepOp s op).2 with
          | none =>
            rw [hopt] at hin1
            simp at hin1
          | some nid =>
            rw [hopt] at hin1
            simp only [Option.toList_some, List.mem_singleton] at hin1
            rw [hin1]
        obtain ⟨hb1, hb2⟩ := h3 id hsome
        exact ⟨idBound_mono _ _ g2 id hb1, hb2⟩
      · obtain ⟨hb1, hb2⟩ := g4 id hin2
        exact ⟨hb1, fun hb => hb2 (idBound_mono _ _ h2 id hb)⟩

/-- C10: starting from module load (counter at 1, no managers), every
sequence of manager constructions, addObstacle calls and removeObstacle
calls yields pairwise-distinct returned ids, every manager holds obstacles
with pairwise-distinct ids, and each addObstacle call increments the
module-global counter by exactly one and returns the id minted from the
counter value it read. -/
theorem claim_c10 :
    (∀ ops : List MgrOp,
      ((runOps moduleStart ops).2).Nodup
      ∧ ∀ m ∈ (runOps moduleStart ops).1.managers, (m.obstacles.map Obstacle.id).Nodup)
    ∧ ∀ (c : ℕ) (m : DynamicObstacleManager),
        (addObstacle c m).1 = c + 1 ∧ (addObstacle c m).2.2 = mkObstacleId c := by
  constructor
  · intro ops
    have h0 : ModInv moduleStart := fun m hm => absurd hm (List.not_mem_nil m)
    obtain ⟨h1, _, h3, _⟩ := runOps_spec ops moduleStart h0
    exact ⟨h3, fun m hm => (h1 m hm).1⟩
  · exact fun c m => ⟨rfl, rfl⟩

/-- C10 witness: the concrete operation sequence — two managers, four
addObstacle calls interleaved with a removal — returns pairwise-distinct
ids. -/
theorem claim_c10_witness : ((runOps moduleStart ops0).2).Nodup :=
  (claim_c10.1 ops0).1
